import Mathlib

/-!
Shallow embedding of the quiz round-state machine and scoring engine of
`src/app/app.py` (a Flask app).  Python dicts are modelled as
insertion-ordered association lists with the lookup/update functions `dget`
and `dset`; Python `float` values that the engine only stores, adds and
subtracts in halves (scores, epoch-second deadlines) are modelled as `ℚ`;
`None`-able fields become `Option`; JSON objects with a fixed field set are
modelled as the corresponding structures, and the one non-trivial key
conversion of the snapshot codec (`str(i)` / `int(s)` on submission keys) is
modelled by a sign-plus-decimal-digits encoding.
-/

/-- Lookup in a Python dict modelled as an association list: first (unique)
matching key. -/
def dget {α β : Type} [DecidableEq α] (m : List (α × β)) (k : α) : Option β :=
  match m with
  | [] => none
  | (k', v) :: rest => if k' = k then some v else dget rest k

/-- Update/insert in a Python dict modelled as an association list: replace
in place if the key is present, else append (Python dicts keep insertion
order and append new keys at the end). -/
def dset {α β : Type} [DecidableEq α] (m : List (α × β)) (k : α) (v : β) :
    List (α × β) :=
  match m with
  | [] => [(k, v)]
  | (k', v') :: rest => if k' = k then (k', v) :: rest else (k', v') :: dset rest k v

/-- Team dataclass from the source: identifier and display name. -/
structure Team where
  id : String
  name : String
deriving DecidableEq

/-- Model of the dynamically-typed `Question.answer` field (`Any` in the
source): an index for `single`, a list of indices for `multi`, a list of
acceptable patterns for `short`, or `None`. -/
inductive QAnswer : Type
  | ofInt (i : Int)
  | ofList (l : List Int)
  | ofPatterns (l : List String)
  | nullv
deriving DecidableEq

/-- Question dataclass from the source. -/
structure Question where
  id : String
  kind : String
  text : String
  topic : String
  difficulty : String
  choices : List String := []
  answer : QAnswer := .nullv
  explanationText : String := ""
deriving DecidableEq

/-- Answer dataclass from the source: one submission record, all fields
optional, plus the tri-state correctness flag (`none` = unknown). -/
structure Answer where
  choice : Option Int := none
  choices : Option (List Int) := none
  text : Option String := none
  correct : Option Bool := none
deriving DecidableEq

/-- RoundState dataclass from the source.  `submissions` is the two-level
map team-id → (question index → Answer); `scores` maps team-id → running
score. -/
structure RoundState where
  qidx : Int := 0
  revealed : Bool := false
  neg_mark : Bool := false
  timer_secs : Int := 60
  deadline : Option ℚ := none
  submissions : List (String × List (Int × Answer)) := []
  scores : List (String × ℚ) := []
deriving DecidableEq

/-- RootState dataclass from the source: teams, question bank, round state. -/
structure RootState where
  teams : List (String × Team) := []
  questions : List Question := []
  rnd : RoundState := {}
deriving DecidableEq

/-- Model of Python `str(i)` on an int submission key: a sign flag plus the
base-10 digits of the absolute value. -/
def encInt (i : Int) : Bool × List Nat :=
  (decide (i < 0), Nat.digits 10 i.natAbs)

/-- Model of Python `int(s)` on a decimal string produced by `str`: rebuild
the magnitude from the digits and reapply the sign. -/
def decInt (p : Bool × List Nat) : Int :=
  if p.1 then -((Nat.ofDigits 10 p.2 : Nat) : Int) else ((Nat.ofDigits 10 p.2 : Nat) : Int)

/-- Wire form of the `rnd` object produced by `RootState.to_json`:
identical to `RoundState` except that submission keys are stringified. -/
structure RndJson where
  qidx : Int
  revealed : Bool
  neg_mark : Bool
  timer_secs : Int
  deadline : Option ℚ
  submissions : List (String × List ((Bool × List Nat) × Answer))
  scores : List (String × ℚ)
deriving DecidableEq

/-- Wire form of the whole snapshot produced by `RootState.to_json`. -/
structure RootJson where
  teams : List (String × Team)
  questions : List Question
  rnd : RndJson
deriving DecidableEq

/-- Embedding of `RootState.to_json`: teams and questions pass through
field-for-field (`asdict`), the round object is copied with submission keys
stringified via `str(i)`. -/
def RootState.to_json (st : RootState) : RootJson :=
  { teams := st.teams
    questions := st.questions
    rnd :=
      { qidx := st.rnd.qidx
        revealed := st.rnd.revealed
        neg_mark := st.rnd.neg_mark
        timer_secs := st.rnd.timer_secs
        deadline := st.rnd.deadline
        submissions := st.rnd.submissions.map
          (fun p => (p.1, p.2.map (fun q => (encInt q.1, q.2))))
        scores := st.rnd.scores } }

/-- Embedding of `RootState.from_json`: rebuild each dataclass, parsing the
stringified submission keys back with `int(s)`. -/
def RootState.from_json (j : RootJson) : RootState :=
  { teams := j.teams
    questions := j.questions
    rnd :=
      { qidx := j.rnd.qidx
        revealed := j.rnd.revealed
        neg_mark := j.rnd.neg_mark
        timer_secs := j.rnd.timer_secs
        deadline := j.rnd.deadline
        submissions := j.rnd.submissions.map
          (fun p => (p.1, p.2.map (fun q => (decInt q.1, q.2))))
        scores := j.rnd.scores } }

/-- Model of `re.fullmatch(rx, text, re.IGNORECASE)` restricted to literal
patterns (the only shape the claims exercise): a literal pattern
full-matches exactly the equal string, case-insensitively. -/
def reFullmatchCI (rx s : String) : Bool := rx.toLower == s.toLower

/-- Coercion `int(q.answer)` for a `single` question; a non-integer shape
has no integer value (the spec treats malformed fields as "no answer"). -/
def asInt : QAnswer → Option Int
  | .ofInt i => some i
  | _ => none

/-- Coercion `q.answer or []` to a list of indices for a `multi` question. -/
def asIntList : QAnswer → List Int
  | .ofList l => l
  | _ => []

/-- Coercion `q.answer or []` to a list of patterns for a `short` question. -/
def asPatterns : QAnswer → List String
  | .ofPatterns l => l
  | _ => []

/-- Embedding of `eval_answer(q, ans)`: per-kind correctness of one
submission against the canonical answer; unknown kinds evaluate to false. -/
def eval_answer (q : Question) (ans : Answer) : Bool :=
  if q.kind = "single" then
    match ans.choice, asInt q.answer with
    | some c, some a => c == a
    | _, _ => false
  else if q.kind = "multi" then
    decide ((ans.choices.getD []).toFinset = (asIntList q.answer).toFinset)
  else if q.kind = "short" then
    (asPatterns q.answer).any (fun rx => reFullmatchCI rx ((ans.text.getD "").trim))
  else false

/-- Embedding of `current_question(st)`: the question at `qidx`, or `None`
when the bank is empty or the index is out of range. -/
def current_question (st : RootState) : Option Question :=
  if st.questions = [] then none
  else if st.rnd.qidx < 0 ∨ (st.questions.length : Int) ≤ st.rnd.qidx then none
  else st.questions[st.rnd.qidx.toNat]?

/-- Outcome of the submit route: 404 for an unknown team, 400 when there is
no current question, a silent redirect when the round is revealed, or a
stored submission. -/
inductive SubmitResult : Type
  | notFoundTeam
  | noQuestion
  | redirectOnly
  | stored
deriving DecidableEq

/-- Parsed form fields of the submit route: an optional single-choice
index, the (possibly empty) list of multi-choice indices, optional free
text. -/
structure SubmitForm where
  choice : Option Int := none
  choicesSel : List Int := []
  text : Option String := none

/-- Embedding of the `submit_answer` route body: team check, current
question check, silent rejection when revealed, else store/overwrite the
team's Answer for the current `qidx`. -/
def submit_answer (st : RootState) (team_id : String) (form : SubmitForm) :
    RootState × SubmitResult :=
  match dget st.teams team_id with
  | none => (st, .notFoundTeam)
  | some _ =>
    match current_question st with
    | none => (st, .noQuestion)
    | some q =>
      if st.rnd.revealed then (st, .redirectOnly)
      else
        let ans : Answer :=
          if q.kind = "single" then { choice := form.choice }
          else if q.kind = "multi" then { choices := some form.choicesSel }
          else if q.kind = "short" then { text := some ((form.text.getD "").trim) }
          else {}
        let inner := dset ((dget st.rnd.submissions team_id).getD []) st.rnd.qidx ans
        ({ st with rnd := { st.rnd with submissions := dset st.rnd.submissions team_id inner } },
          .stored)

/-- Request-context facts the authorization gate reads: the configured
`ADMIN_TOKEN` environment value, the `X-QUIZ-ADMIN` header (defaulted to
the empty string) and the caller's remote address. -/
structure AuthCtx where
  env_admin_token : Option String := none
  header_admin : String := ""
  remote_addr : String := ""

/-- Embedding of `is_local_request()`. -/
def is_local_request (ctx : AuthCtx) : Bool :=
  ctx.remote_addr.startsWith "127." || ctx.remote_addr == "::1"
    || ctx.remote_addr == "localhost"

/-- Parsed form fields of the facilitator POST route: the requested action,
whether the `neg` field is present and non-empty (Python truthiness of
`request.form.get("neg")`), the parsed timer seconds (`none` for an absent
or unparsable field, which the `try/except` leaves ignored) and the
optional admin token. -/
structure FacForm where
  action : Option String := none
  neg : Bool := false
  timer : Option Int := none
  admin_token : Option String := none

/-- Token the caller presented: the form value when present and non-empty,
else the header (`request.form.get(...) or request.headers.get(..., "")`). -/
def presented_token (ctx : AuthCtx) (form : FacForm) : String :=
  match form.admin_token with
  | some s => if s = "" then ctx.header_admin else s
  | none => ctx.header_admin

/-- Embedding of `allowed_reset()`: when an admin token is configured
(non-empty), require the presented token to be non-empty and equal to it;
otherwise fall back to the localhost check. -/
def allowed_reset (ctx : AuthCtx) (form : FacForm) : Bool :=
  match ctx.env_admin_token with
  | some t =>
    if t = "" then is_local_request ctx
    else
      if presented_token ctx form = "" then false
      else presented_token ctx form == t
  | none => is_local_request ctx

/-- Truthiness test `ans` is an attempt, from the reveal branch of the
source: a chosen index for `single`, a non-empty index list for `multi`, a
non-empty text for `short`. -/
def attempted (q : Question) (ans : Answer) : Bool :=
  (if q.kind = "single" then ans.choice.isSome else false)
  || (if q.kind = "multi" then !decide (ans.choices.getD [] = []) else false)
  || (if q.kind = "short" then !decide (ans.text.getD "" = "") else false)

/-- Per-team body of the reveal loop: look up the team's Answer at the
current index; skip absent teams; otherwise stamp the correctness flag and
apply the score delta (+1 single / +2 otherwise when correct, −0.5 when
incorrect, negative marking is on and the submission was an attempt). -/
def revealStep (q : Question) (qi : Int) (neg : Bool)
    (acc : List (String × List (Int × Answer)) × List (String × ℚ)) (tid : String) :
    List (String × List (Int × Answer)) × List (String × ℚ) :=
  match dget ((dget acc.1 tid).getD []) qi with
  | none => acc
  | some ans =>
    let c := eval_answer q ans
    let inner := dset ((dget acc.1 tid).getD []) qi { ans with correct := some c }
    let subs' := dset acc.1 tid inner
    if c then
      (subs', dset acc.2 tid ((dget acc.2 tid).getD 0 + (if q.kind = "single" then 1 else 2)))
    else if neg && attempted q ans then
      (subs', dset acc.2 tid ((dget acc.2 tid).getD 0 - 1/2))
    else (subs', acc.2)

/-- Embedding of the reveal action body (source lines 285–301): no-op when
there is no current question; otherwise run the per-team loop over the team
roster in order, then set `revealed` and clear the deadline. -/
def doReveal (st : RootState) : RootState :=
  match current_question st with
  | none => st
  | some q =>
    let p := (st.teams.map Prod.fst).foldl (revealStep q st.rnd.qidx st.rnd.neg_mark)
      (st.rnd.submissions, st.rnd.scores)
    { st with rnd := { st.rnd with
        submissions := p.1
        scores := p.2
        revealed := true
        deadline := none } }

/-- Loop `for tid in st.teams: submissions[tid] = {}` shared by the
shuffle and reset actions. -/
def clearSubs (teams : List (String × Team))
    (subs : List (String × List (Int × Answer))) :
    List (String × List (Int × Answer)) :=
  teams.foldl (fun s p => dset s p.1 []) subs

/-- Loop `for tid in st.teams: scores[tid] = 0.0` from the reset_all
action. -/
def zeroScores (teams : List (String × Team)) (scores : List (String × ℚ)) :
    List (String × ℚ) :=
  teams.foldl (fun s p => dset s p.1 0) scores

/-- Embedding of the facilitator POST dispatcher (source lines 256–314):
first the sticky negative-marking update, then the requested action; the
returned flag is `blocked` (the distinct 403 refusal of an unauthorized
reset).  `now` stands for `time.time()` and `shuffled` for the reordering
chosen by `random.shuffle`. -/
def facilitatorPost (ctx : AuthCtx) (now : ℚ) (shuffled : List Question)
    (st : RootState) (form : FacForm) : RootState × Bool :=
  let rnd0 := { st.rnd with neg_mark := form.neg || st.rnd.neg_mark }
  let st0 : RootState := { st with rnd := rnd0 }
  if form.action = some "start_timer" then
    let ts := form.timer.getD rnd0.timer_secs
    ({ st0 with rnd := { rnd0 with
        timer_secs := ts
        deadline := some (now + (ts : ℚ)) } }, false)
  else if form.action = some "shuffle" then
    ({ st0 with
        questions := shuffled
        rnd := { rnd0 with
          qidx := 0
          revealed := false
          deadline := none
          submissions := clearSubs st.teams rnd0.submissions } }, false)
  else if form.action = some "prev" then
    ({ st0 with rnd := { rnd0 with
        qidx := max 0 (rnd0.qidx - 1)
        revealed := false
        deadline := none } }, false)
  else if form.action = some "next" then
    ({ st0 with rnd := { rnd0 with
        qidx := min ((st.questions.length : Int) - 1) (rnd0.qidx + 1)
        revealed := false
        deadline := none } }, false)
  else if form.action = some "reset_round" ∨ form.action = some "reset_all"
      ∨ form.action = some "reveal" then
    if (form.action = some "reset_round" ∨ form.action = some "reset_all")
        ∧ allowed_reset ctx form = false then
      (st0, true)
    else if form.action = some "reveal" then
      (doReveal st0, false)
    else if form.action = some "reset_round" then
      ({ st0 with rnd := { rnd0 with
          revealed := false
          deadline := none
          submissions := clearSubs st.teams rnd0.submissions } }, false)
    else
      ({ st0 with rnd := { rnd0 with
          qidx := 0
          revealed := false
          deadline := none
          submissions := clearSubs st.teams rnd0.submissions
          scores := zeroScores st.teams rnd0.scores } }, false)
  else (st0, false)

/-- Projection of the two per-team maps (submissions, scores) at one team id. -/
def entriesAt (tid : String)
    (acc : List (String × List (Int × Answer)) × List (String × ℚ)) :
    Option (List (Int × Answer)) × Option ℚ :=
  (dget acc.1 tid, dget acc.2 tid)

/-- Action of one reveal-loop iteration on a single team's pair of entries. -/
def revealStepAt (q : Question) (qi : Int) (neg : Bool)
    (e : Option (List (Int × Answer)) × Option ℚ) :
    Option (List (Int × Answer)) × Option ℚ :=
  match dget (e.1.getD []) qi with
  | none => e
  | some ans =>
    let c := eval_answer q ans
    let inner := dset (e.1.getD []) qi { ans with correct := some c }
    if c then
      (some inner, some ((e.2.getD 0) + (if q.kind = "single" then 1 else 2)))
    else if neg && attempted q ans then
      (some inner, some ((e.2.getD 0) - 1/2))
    else (some inner, e.2)

/-- Test "the team actually attempted the question" in the claim's own
words: a chosen index present, a non-empty index set, or non-empty text. -/
def nonBlank (ans : Answer) : Bool :=
  ans.choice.isSome || !decide (ans.choices.getD [] = []) || !decide (ans.text.getD "" = "")

/-- Shape discipline of §3 of the spec: a stored Answer holds exactly the
fields relevant to the kind of the question it answers. -/
def wellFormedFor (q : Question) (ans : Answer) : Prop :=
  (q.kind = "single" ∧ ans.choices.getD [] = [] ∧ ans.text.getD "" = "") ∨
  (q.kind = "multi" ∧ ans.choice = none ∧ ans.text.getD "" = "") ∨
  (q.kind = "short" ∧ ans.choice = none ∧ ans.choices.getD [] = [])

def teamAlpha : Team := { id := "alpha", name := "Alpha" }

def teamBravo : Team := { id := "bravo", name := "Bravo" }

def teamCharlie : Team := { id := "charlie", name := "Charlie" }

/-- Three-team roster in the insertion order `load_state` would create. -/
def exTeams : List (String × Team) :=
  [("alpha", teamAlpha), ("bravo", teamBravo), ("charlie", teamCharlie)]

/-- Single-choice question with canonical index 1. -/
def qSingle : Question :=
  { id := "q1"
    kind := "single"
    text := "Pick one"
    topic := "t"
    difficulty := "easy"
    choices := ["no", "yes"]
    answer := .ofInt 1 }

/-- Multi-choice question with canonical set {0, 2}. -/
def qMulti : Question :=
  { id := "q2"
    kind := "multi"
    text := "Pick all"
    topic := "t"
    difficulty := "easy"
    choices := ["a", "b", "c"]
    answer := .ofList [0, 2] }

def ansRight : Answer := { choice := some 1 }

def ansWrong : Answer := { choice := some 0 }

def ansSubset : Answer := { choices := some [0] }

def ansRevealedRight : Answer := { choice := some 1, correct := some true }

/-- Round already revealed once: alpha answered correctly and holds 1 point. -/
def rndRevealed : RoundState :=
  { qidx := 0
    revealed := true
    neg_mark := false
    timer_secs := 60
    deadline := none
    submissions := [("alpha", [(0, ansRevealedRight)]), ("bravo", []), ("charlie", [])]
    scores := [("alpha", 1), ("bravo", 0), ("charlie", 0)] }

def exStRevealed : RootState :=
  { teams := exTeams
    questions := [qSingle]
    rnd := rndRevealed }

/-- Quiet pre-reveal round with one stored submission. -/
def rndPlain : RoundState :=
  { qidx := 0
    revealed := false
    neg_mark := false
    timer_secs := 60
    deadline := none
    submissions := [("alpha", [(0, ansRight)]), ("bravo", []), ("charlie", [])]
    scores := [("alpha", 0), ("bravo", 0), ("charlie", 0)] }

def exStPlain : RootState :=
  { teams := exTeams
    questions := [qSingle]
    rnd := rndPlain }

/-- Pre-reveal round with negative marking on: alpha correct, bravo wrong,
charlie silent (the end-to-end scenario of §8 of the spec). -/
def rndOpen : RoundState :=
  { qidx := 0
    revealed := false
    neg_mark := true
    timer_secs := 60
    deadline := none
    submissions := [("alpha", [(0, ansRight)]), ("bravo", [(0, ansWrong)]), ("charlie", [])]
    scores := [("alpha", 0), ("bravo", 0), ("charlie", 0)] }

def exStOpen : RootState :=
  { teams := exTeams
    questions := [qSingle]
    rnd := rndOpen }

/-- One-question bank with an out-of-range starting index. -/
def rndOut : RoundState :=
  { qidx := 5
    revealed := false
    neg_mark := false
    timer_secs := 60
    deadline := none
    submissions := []
    scores := [] }

def exStOut : RootState :=
  { teams := exTeams
    questions := [qSingle]
    rnd := rndOut }

def ctxLocal : AuthCtx := { remote_addr := "127.0.0.1" }

/-- Remote caller presenting no token while a secret is configured. -/
def ctxRemote : AuthCtx :=
  { env_admin_token := some "sekrit"
    header_admin := ""
    remote_addr := "10.1.2.3" }

def revealForm : FacForm := { action := some "reveal" }

def resetFormNeg : FacForm :=
  { action := some "reset_round"
    neg := true }

def resetAllForm : FacForm := { action := some "reset_all" }

def nextForm : FacForm := { action := some "next" }

def prevForm : FacForm := { action := some "prev" }

def shuffleForm : FacForm := { action := some "shuffle" }

theorem dget_dset_self {α β : Type} [DecidableEq α] (m : List (α × β)) (k : α) (v : β) :
    dget (dset m k v) k = some v := by
  induction m with
  | nil => simp [dget, dset]
  | cons p rest ih =>
    obtain ⟨k', v'⟩ := p
    by_cases h : k' = k
    · simp [dget, dset, h]
    · simp [dget, dset, h, ih]

theorem dget_dset_ne {α β : Type} [DecidableEq α] (m : List (α × β)) (k k' : α) (v : β)
    (h : k ≠ k') : dget (dset m k v) k' = dget m k' := by
  induction m with
  | nil => simp [dget, dset, h]
  | cons p rest ih =>
    obtain ⟨a, b⟩ := p
    by_cases ha : a = k
    · subst ha
      simp [dget, dset, h]
    · simp [dget, dset, ha, ih]

theorem decInt_encInt (i : Int) : decInt (encInt i) = i := by
  simp only [decInt, encInt]
  by_cases h : i < 0
  · rw [if_pos (decide_eq_true h), Nat.ofDigits_digits]
    omega
  · rw [if_neg (by simpa using h), Nat.ofDigits_digits]
    omega

theorem subs_inner_roundtrip (qs : List (Int × Answer)) :
    (qs.map (fun q => (encInt q.1, q.2))).map (fun q => (decInt q.1, q.2)) = qs := by
  induction qs with
  | nil => rfl
  | cons q rest ih => simp only [List.map_cons, decInt_encInt, ih, Prod.mk.eta]

theorem subs_roundtrip (subs : List (String × List (Int × Answer))) :
    (subs.map (fun p => (p.1, p.2.map (fun q => (encInt q.1, q.2))))).map
      (fun p => (p.1, p.2.map (fun q => (decInt q.1, q.2)))) = subs := by
  induction subs with
  | nil => rfl
  | cons p rest ih =>
    simp only [List.map_cons, subs_inner_roundtrip, ih, Prod.mk.eta]

/-- C5: deserializing a serialized snapshot reproduces the state exactly,
field for field, for every populated `RootState` (partially answered slots,
tri-state correctness flags, optional deadline, negative scores included). -/
theorem snapshot_roundtrip (st : RootState) :
    RootState.from_json (RootState.to_json st) = st := by
  obtain ⟨teams, questions, rnd⟩ := st
  obtain ⟨qidx, revealed, neg, secs, dl, subs, scores⟩ := rnd
  simp only [RootState.to_json, RootState.from_json, subs_roundtrip]

theorem entriesAt_revealStep (q : Question) (qi : Int) (neg : Bool)
    (acc : List (String × List (Int × Answer)) × List (String × ℚ)) (t tid : String) :
    entriesAt tid (revealStep q qi neg acc t) =
      if t = tid then revealStepAt q qi neg (entriesAt tid acc)
      else entriesAt tid acc := by
  by_cases h : t = tid
  · subst h
    cases hm : dget ((dget acc.1 t).getD []) qi with
    | none => simp [revealStep, revealStepAt, entriesAt, hm]
    | some ans =>
      cases hc : eval_answer q ans with
      | true => simp [revealStep, revealStepAt, entriesAt, hm, hc, dget_dset_self]
      | false =>
        cases ha : neg && attempted q ans with
        | true => simp [revealStep, revealStepAt, entriesAt, hm, hc, ha, dget_dset_self]
        | false => simp [revealStep, revealStepAt, entriesAt, hm, hc, ha, dget_dset_self]
  · cases hm : dget ((dget acc.1 t).getD []) qi with
    | none => simp [revealStep, entriesAt, hm, h]
    | some ans =>
      cases hc : eval_answer q ans with
      | true => simp [revealStep, entriesAt, hm, hc, h, dget_dset_ne _ _ _ _ h]
      | false =>
        cases ha : neg && attempted q ans with
        | true => simp [revealStep, entriesAt, hm, hc, ha, h, dget_dset_ne _ _ _ _ h]
        | false => simp [revealStep, entriesAt, hm, hc, ha, h, dget_dset_ne _ _ _ _ h]

theorem entriesAt_foldl (q : Question) (qi : Int) (neg : Bool) (tid : String) :
    ∀ (l : List String), l.Nodup →
      ∀ acc, entriesAt tid (l.foldl (revealStep q qi neg) acc) =
        if tid ∈ l then revealStepAt q qi neg (entriesAt tid acc)
        else entriesAt tid acc := by
  intro l
  induction l with
  | nil =>
    intro _ acc
    simp
  | cons t rest ih =>
    intro hnd acc
    obtain ⟨hnotin, hnd'⟩ := List.nodup_cons.mp hnd
    rw [List.foldl_cons, ih hnd', entriesAt_revealStep]
    by_cases h : t = tid
    · subst h
      simp [hnotin]
    · by_cases hmem : tid ∈ rest <;> simp [h, hmem, Ne.symm h]

theorem doReveal_neg_mark (st : RootState) :
    (doReveal st).rnd.neg_mark = st.rnd.neg_mark := by
  cases hq : current_question st <;> simp [doReveal, hq]

theorem facilitatorPost_neg_mark (ctx : AuthCtx) (now : ℚ) (shuffled : List Question)
    (st : RootState) (form : FacForm) :
    (facilitatorPost ctx now shuffled st form).1.rnd.neg_mark =
      (form.neg || st.rnd.neg_mark) := by
  simp only [facilitatorPost]
  split_ifs <;> simp [doReveal_neg_mark]

theorem submit_answer_neg_mark (st : RootState) (tid : String) (sform : SubmitForm) :
    (submit_answer st tid sform).1.rnd.neg_mark = st.rnd.neg_mark := by
  unfold submit_answer
  cases dget st.teams tid
  · rfl
  · cases current_question st
    · rfl
    · cases h : st.rnd.revealed <;> simp [h]

theorem dget_clearSubs (tid : String) :
    ∀ (teams : List (String × Team)) (subs : List (String × List (Int × Answer))),
      (tid ∈ teams.map Prod.fst ∨ dget subs tid = some []) →
      dget (clearSubs teams subs) tid = some [] := by
  intro teams
  induction teams with
  | nil =>
    intro subs h
    rcases h with h | h
    · simp at h
    · simpa [clearSubs] using h
  | cons p rest ih =>
    intro subs h
    have hstep : clearSubs (p :: rest) subs = clearSubs rest (dset subs p.1 []) := rfl
    rw [hstep]
    apply ih
    by_cases hp : p.1 = tid
    · right
      rw [hp]
      exact dget_dset_self _ _ _
    · rcases h with h | h
      · rcases List.mem_cons.mp h with h | h
        · exact absurd h.symm hp
        · exact Or.inl h
      · right
        rw [dget_dset_ne _ _ _ _ hp]
        exact h

theorem attempted_eq_nonBlank (q : Question) (ans : Answer)
    (h : wellFormedFor q ans) : attempted q ans = nonBlank ans := by
  rcases h with ⟨hk, h1, h2⟩ | ⟨hk, h1, h2⟩ | ⟨hk, h1, h2⟩ <;>
    simp [attempted, nonBlank, hk, h1, h2]

theorem attempted_false_of_nonBlank_false (q : Question) (ans : Answer)
    (h : nonBlank ans = false) : attempted q ans = false := by
  simp only [nonBlank, Bool.or_eq_false_iff, Bool.not_eq_false',
    decide_eq_true_eq] at h
  obtain ⟨⟨h1, h2⟩, h3⟩ := h
  simp [attempted, h1, h2, h3]

/-- C3: at reveal time, a team with a stored Answer at the current index
gains exactly +1 (single) or +2 (any other kind) when the Answer evaluates
correct; when it evaluates incorrect the team loses exactly 0.5 precisely
when negative marking is enabled and the submission is non-blank (a chosen
index present, a non-empty index set, or non-empty text), blank submissions
being never penalized; a team with no stored Answer for the slot gets no
score change and its submission map is untouched (no stamping). -/
theorem reveal_scoring (st : RootState) (q : Question) (tid : String)
    (hnd : (st.teams.map Prod.fst).Nodup)
    (hmem : tid ∈ st.teams.map Prod.fst)
    (hq : current_question st = some q) :
    (dget ((dget st.rnd.submissions tid).getD []) st.rnd.qidx = none →
      dget (doReveal st).rnd.scores tid = dget st.rnd.scores tid ∧
      dget (doReveal st).rnd.submissions tid = dget st.rnd.submissions tid) ∧
    (∀ ans, dget ((dget st.rnd.submissions tid).getD []) st.rnd.qidx = some ans →
      (eval_answer q ans = true →
        dget (doReveal st).rnd.scores tid =
          some ((dget st.rnd.scores tid).getD 0 +
            (if q.kind = "single" then 1 else 2))) ∧
      (eval_answer q ans = false →
        (st.rnd.neg_mark = true → wellFormedFor q ans → nonBlank ans = true →
          dget (doReveal st).rnd.scores tid =
            some ((dget st.rnd.scores tid).getD 0 - 1/2)) ∧
        ((st.rnd.neg_mark = false ∨ nonBlank ans = false) →
          dget (doReveal st).rnd.scores tid = dget st.rnd.scores tid))) := by
  have hP2 : (doReveal st).rnd.scores =
      ((st.teams.map Prod.fst).foldl (revealStep q st.rnd.qidx st.rnd.neg_mark)
        (st.rnd.submissions, st.rnd.scores)).2 := by
    simp [doReveal, hq]
  have hP1 : (doReveal st).rnd.submissions =
      ((st.teams.map Prod.fst).foldl (revealStep q st.rnd.qidx st.rnd.neg_mark)
        (st.rnd.submissions, st.rnd.scores)).1 := by
    simp [doReveal, hq]
  have hfold := entriesAt_foldl q st.rnd.qidx st.rnd.neg_mark tid
    (st.teams.map Prod.fst) hnd (st.rnd.submissions, st.rnd.scores)
  rw [if_pos hmem] at hfold
  have hsc : dget (doReveal st).rnd.scores tid =
      (revealStepAt q st.rnd.qidx st.rnd.neg_mark
        (dget st.rnd.submissions tid, dget st.rnd.scores tid)).2 := by
    rw [hP2]
    have := congrArg Prod.snd hfold
    simpa [entriesAt] using this
  have hsb : dget (doReveal st).rnd.submissions tid =
      (revealStepAt q st.rnd.qidx st.rnd.neg_mark
        (dget st.rnd.submissions tid, dget st.rnd.scores tid)).1 := by
    rw [hP1]
    have := congrArg Prod.fst hfold
    simpa [entriesAt] using this
  refine ⟨?_, ?_⟩
  · intro ha
    refine ⟨?_, ?_⟩
    · rw [hsc]
      simp [revealStepAt, ha]
    · rw [hsb]
      simp [revealStepAt, ha]
  · intro ans ha
    refine ⟨?_, ?_⟩
    · intro hcorr
      rw [hsc]
      simp [revealStepAt, ha, hcorr]
    · intro hcorr
      refine ⟨?_, ?_⟩
      · intro hneg hwf hnb
        have hatt : attempted q ans = true := by
          rw [attempted_eq_nonBlank q ans hwf]
          exact hnb
        rw [hsc]
        simp [revealStepAt, ha, hcorr, hneg, hatt]
      · intro hcase
        rw [hsc]
        rcases hcase with hneg | hnb
        · simp [revealStepAt, ha, hcorr, hneg]
        · have hatt : attempted q ans = false :=
            attempted_false_of_nonBlank_false q ans hnb
          simp [revealStepAt, ha, hcorr, hatt]

/-- C1: the reveal action has no already-revealed guard, so invoking it on
an already-revealed state re-applies the score deltas: from the reachable
state in which alpha answered correctly, was revealed and holds 1 point, a
second reveal raises alpha to 2 points instead of leaving scores unchanged. -/
theorem reveal_reapplied_on_revealed :
    exStRevealed.rnd.revealed = true ∧
    dget exStRevealed.rnd.scores "alpha" = some 1 ∧
    dget (facilitatorPost ctxLocal 0 [] exStRevealed revealForm).1.rnd.scores "alpha"
      = some 2 :=
  ⟨rfl, rfl, by with_unfolding_all rfl⟩

/-- C2 (counterexample): a reset_round refused by the authorization gate
still mutates the state when the request carries a non-empty neg field —
the negative-marking flag flips from false to true, so the state is not
completely unchanged. -/
theorem reset_unauthorized_cex :
    (facilitatorPost ctxRemote 0 [] exStPlain resetFormNeg).2 = true ∧
    exStPlain.rnd.neg_mark = false ∧
    (facilitatorPost ctxRemote 0 [] exStPlain resetFormNeg).1.rnd.neg_mark = true := by
  decide

/-- C2 (amended): a reset_round/reset_all refused by the authorization gate
reports the distinct blocked condition and leaves the entire state
unchanged except for the sticky negative-marking update that precedes
dispatch (the persisted snapshot is rewritten from that same state). -/
theorem reset_unauthorized_frame (ctx : AuthCtx) (now : ℚ) (shuffled : List Question)
    (st : RootState) (form : FacForm)
    (hact : form.action = some "reset_round" ∨ form.action = some "reset_all")
    (hauth : allowed_reset ctx form = false) :
    facilitatorPost ctx now shuffled st form =
      ({ st with rnd := { st.rnd with neg_mark := form.neg || st.rnd.neg_mark } }, true) := by
  rcases hact with ha | ha <;> simp [facilitatorPost, ha, hauth]

theorem reset_unauthorized_frame_witness :
    facilitatorPost ctxRemote 0 [] exStPlain resetFormNeg =
      ({ exStPlain with rnd := { exStPlain.rnd with
          neg_mark := resetFormNeg.neg || exStPlain.rnd.neg_mark } }, true) :=
  reset_unauthorized_frame ctxRemote 0 [] exStPlain resetFormNeg (Or.inl rfl) (by decide)

/-- C4 (amended): prev/next never block, always reset `revealed` and the
deadline, keep the question bank, leave no valid question when the bank is
empty, and clamp the index within bounds whenever the starting index was
itself in bounds. -/
theorem advance_retreat_clamp (ctx : AuthCtx) (now : ℚ) (shuffled : List Question)
    (st : RootState) (form : FacForm)
    (hact : form.action = some "prev" ∨ form.action = some "next") :
    (facilitatorPost ctx now shuffled st form).2 = false ∧
    (facilitatorPost ctx now shuffled st form).1.rnd.revealed = false ∧
    (facilitatorPost ctx now shuffled st form).1.rnd.deadline = none ∧
    (facilitatorPost ctx now shuffled st form).1.questions = st.questions ∧
    (st.questions = [] →
      current_question (facilitatorPost ctx now shuffled st form).1 = none) ∧
    (0 ≤ st.rnd.qidx → st.rnd.qidx < (st.questions.length : Int) →
      0 ≤ (facilitatorPost ctx now shuffled st form).1.rnd.qidx ∧
      (facilitatorPost ctx now shuffled st form).1.rnd.qidx <
        (st.questions.length : Int)) := by
  rcases hact with ha | ha
  · have hbr : facilitatorPost ctx now shuffled st form =
        ({ st with rnd := { st.rnd with
            neg_mark := form.neg || st.rnd.neg_mark
            qidx := max 0 (st.rnd.qidx - 1)
            revealed := false
            deadline := none } }, false) := by
      simp [facilitatorPost, ha]
    rw [hbr]
    refine ⟨rfl, rfl, rfl, rfl, ?_, ?_⟩
    · intro hempty
      simp [current_question, hempty]
    · intro h0 h1
      refine ⟨?_, ?_⟩
      · show (0 : Int) ≤ max 0 (st.rnd.qidx - 1)
        omega
      · show max 0 (st.rnd.qidx - 1) < (st.questions.length : Int)
        omega
  · have hbr : facilitatorPost ctx now shuffled st form =
        ({ st with rnd := { st.rnd with
            neg_mark := form.neg || st.rnd.neg_mark
            qidx := min ((st.questions.length : Int) - 1) (st.rnd.qidx + 1)
            revealed := false
            deadline := none } }, false) := by
      simp [facilitatorPost, ha]
    rw [hbr]
    refine ⟨rfl, rfl, rfl, rfl, ?_, ?_⟩
    · intro hempty
      simp [current_question, hempty]
    · intro h0 h1
      refine ⟨?_, ?_⟩
      · show (0 : Int) ≤ min ((st.questions.length : Int) - 1) (st.rnd.qidx + 1)
        omega
      · show min ((st.questions.length : Int) - 1) (st.rnd.qidx + 1) <
          (st.questions.length : Int)
        omega

theorem advance_retreat_clamp_witness :
    (0 : Int) ≤ (facilitatorPost ctxLocal 0 [] exStPlain nextForm).1.rnd.qidx ∧
    (facilitatorPost ctxLocal 0 [] exStPlain nextForm).1.rnd.qidx <
      (exStPlain.questions.length : Int) ∧
    (facilitatorPost ctxLocal 0 [] exStPlain nextForm).1.rnd.revealed = false ∧
    (facilitatorPost ctxLocal 0 [] exStPlain nextForm).1.rnd.deadline = none := by
  have h := advance_retreat_clamp ctxLocal 0 [] exStPlain nextForm (Or.inr rfl)
  have hb := h.2.2.2.2.2 (by decide) (by decide)
  exact ⟨hb.1, hb.2, h.2.1, h.2.2.1⟩

/-- C4 (counterexample): with one question and the unreachable starting
index 5, retreat produces index 4, which is not within [0, N−1] = [0, 0] —
the claim fails for arbitrary starting indices. -/
theorem advance_retreat_cex :
    exStOut.questions.length = 1 ∧
    (facilitatorPost ctxLocal 0 [] exStOut prevForm).1.rnd.qidx = 4 ∧
    ¬ ((facilitatorPost ctxLocal 0 [] exStOut prevForm).1.rnd.qidx <
        (exStOut.questions.length : Int)) := by
  decide

theorem reveal_scoring_witness :
    dget (doReveal exStOpen).rnd.scores "alpha" = some 1 ∧
    dget (doReveal exStOpen).rnd.scores "bravo" = some (-(1/2)) ∧
    dget (doReveal exStOpen).rnd.scores "charlie" = dget exStOpen.rnd.scores "charlie" := by
  have hA := (reveal_scoring exStOpen qSingle "alpha" (by decide) (by decide)
    (by decide)).2 ansRight (by decide)
  have hB := (reveal_scoring exStOpen qSingle "bravo" (by decide) (by decide)
    (by decide)).2 ansWrong (by decide)
  have hC := (reveal_scoring exStOpen qSingle "charlie" (by decide) (by decide)
    (by decide)).1 (by decide)
  refine ⟨?_, ?_, hC.1⟩
  · have h := hA.1 (by decide)
    rw [h]
    with_unfolding_all rfl
  · have h := (hB.2 (by decide)).1 rfl (Or.inl ⟨rfl, rfl, rfl⟩) (by decide)
    rw [h]
    with_unfolding_all rfl

/-- C6: for a multi question the evaluator returns true exactly when the
submitted index set equals the canonical set; a strict subset or strict
superset of the canonical set always evaluates false (no partial credit). -/
theorem eval_multi_exact (q : Question) (ans : Answer) (canon : List Int)
    (hk : q.kind = "multi") (ha : q.answer = .ofList canon) :
    (eval_answer q ans = true ↔
      (ans.choices.getD []).toFinset = canon.toFinset) ∧
    ((ans.choices.getD []).toFinset ⊂ canon.toFinset ∨
        canon.toFinset ⊂ (ans.choices.getD []).toFinset →
      eval_answer q ans = false) := by
  have hiff : eval_answer q ans = true ↔
      (ans.choices.getD []).toFinset = canon.toFinset := by
    simp [eval_answer, hk, ha, asIntList]
  refine ⟨hiff, ?_⟩
  intro hss
  cases hev : eval_answer q ans with
  | false => rfl
  | true =>
    exfalso
    have heq := hiff.mp hev
    rcases hss with hss | hss
    · exact absurd heq (HasSSubset.SSubset.ne hss)
    · exact absurd heq.symm (HasSSubset.SSubset.ne hss)

theorem eval_multi_exact_witness :
    eval_answer qMulti ansSubset = false := by
  have h := eval_multi_exact qMulti ansSubset [0, 2] rfl rfl
  apply h.2
  left
  decide

/-- C7: a submission by an existing team while the current question is
revealed is a silent no-op: the state is returned unchanged, nothing is
stored or overwritten, and the caller gets a redirect rather than an
error. -/
theorem submit_rejected_after_reveal (st : RootState) (tid : String) (form : SubmitForm)
    (tm : Team) (q : Question)
    (hteam : dget st.teams tid = some tm)
    (hq : current_question st = some q)
    (hrev : st.rnd.revealed = true) :
    submit_answer st tid form = (st, SubmitResult.redirectOnly) := by
  simp [submit_answer, hteam, hq, hrev]

theorem submit_rejected_after_reveal_witness :
    submit_answer exStRevealed "alpha" {} = (exStRevealed, SubmitResult.redirectOnly) :=
  submit_rejected_after_reveal exStRevealed "alpha" {} teamAlpha qSingle
    (by decide) (by decide) rfl

/-- C8: shuffle never blocks, resets the question index to 0, clears the
reveal flag and the deadline, empties every rostered team's submissions,
and leaves every team's score untouched. -/
theorem shuffle_resets_round (ctx : AuthCtx) (now : ℚ) (shuffled : List Question)
    (st : RootState) (form : FacForm)
    (hact : form.action = some "shuffle") :
    (facilitatorPost ctx now shuffled st form).2 = false ∧
    (facilitatorPost ctx now shuffled st form).1.rnd.qidx = 0 ∧
    (facilitatorPost ctx now shuffled st form).1.rnd.revealed = false ∧
    (facilitatorPost ctx now shuffled st form).1.rnd.deadline = none ∧
    (facilitatorPost ctx now shuffled st form).1.rnd.scores = st.rnd.scores ∧
    ∀ tid, tid ∈ st.teams.map Prod.fst →
      dget (facilitatorPost ctx now shuffled st form).1.rnd.submissions tid = some [] := by
  have hbr : facilitatorPost ctx now shuffled st form =
      ({ st with
          questions := shuffled
          rnd := { st.rnd with
            neg_mark := form.neg || st.rnd.neg_mark
            qidx := 0
            revealed := false
            deadline := none
            submissions := clearSubs st.teams st.rnd.submissions } }, false) := by
    simp [facilitatorPost, hact]
  rw [hbr]
  refine ⟨rfl, rfl, rfl, rfl, rfl, ?_⟩
  intro tid hmem
  exact dget_clearSubs tid st.teams st.rnd.submissions (Or.inl hmem)

theorem shuffle_resets_round_witness :
    (facilitatorPost ctxLocal 0 [qSingle] exStRevealed shuffleForm).2 = false ∧
    (facilitatorPost ctxLocal 0 [qSingle] exStRevealed shuffleForm).1.rnd.qidx = 0 ∧
    (facilitatorPost ctxLocal 0 [qSingle] exStRevealed shuffleForm).1.rnd.scores =
      exStRevealed.rnd.scores ∧
    dget (facilitatorPost ctxLocal 0 [qSingle] exStRevealed shuffleForm).1.rnd.submissions
      "alpha" = some [] := by
  have h := shuffle_resets_round ctxLocal 0 [qSingle] exStRevealed shuffleForm rfl
  exact ⟨h.1, h.2.1, h.2.2.2.2.1, h.2.2.2.2.2 "alpha" (by decide)⟩

/-- C9: once the negative-marking flag is true no engine operation resets
it: any facilitator POST (arm-timer, advance, retreat, reveal, shuffle,
reset_round or reset_all, authorized or not) and any submission leave it
true. -/
theorem neg_mark_sticky (ctx : AuthCtx) (now : ℚ) (shuffled : List Question)
    (st : RootState) (form : FacForm) (tid : String) (sform : SubmitForm)
    (h : st.rnd.neg_mark = true) :
    (facilitatorPost ctx now shuffled st form).1.rnd.neg_mark = true ∧
    (submit_answer st tid sform).1.rnd.neg_mark = true := by
  refine ⟨?_, ?_⟩
  · rw [facilitatorPost_neg_mark, h, Bool.or_true]
  · rw [submit_answer_neg_mark, h]

theorem neg_mark_sticky_witness :
    (facilitatorPost ctxLocal 0 [] exStOpen resetAllForm).1.rnd.neg_mark = true ∧
    (submit_answer exStOpen "alpha" {}).1.rnd.neg_mark = true :=
  neg_mark_sticky ctxLocal 0 [] exStOpen resetAllForm "alpha" {} rfl

/-- C10: the facilitator POST handler applies the neg form field before
dispatching: whenever the field is present and non-empty the flag ends up
enabled, whatever action was requested and even when that action is a
refused reset. -/
theorem neg_update_precedes_dispatch (ctx : AuthCtx) (now : ℚ)
    (shuffled : List Question) (st : RootState) (form : FacForm)
    (h : form.neg = true) :
    (facilitatorPost ctx now shuffled st form).1.rnd.neg_mark = true := by
  rw [facilitatorPost_neg_mark, h, Bool.true_or]

theorem neg_update_precedes_dispatch_witness :
    (facilitatorPost ctxRemote 0 [] exStPlain resetFormNeg).1.rnd.neg_mark = true :=
  neg_update_precedes_dispatch ctxRemote 0 [] exStPlain resetFormNeg rfl
